import Mathlib

/-!
Shallow embedding of `src/CharityTracker/charity_tracker.py` (the logic layer
of the Charity Donation Tracker) together with proofs checking the
natural-language specification against it.

Modelling decisions, stated once here:

* Python strings are modelled as `List Char` (Python strings are sequences of
  code points, so this is a direct model).  `str.strip()` is `pyStrip`
  (restricted to the ASCII whitespace characters), `str.lower()` is `pyLower`
  (restricted to ASCII letter lowering; every name in the claims is ASCII).
* Python floats are modelled as exact rationals `ℚ`; arithmetic on them
  (`sum`, `/`, comparisons) is exact rational arithmetic.
* `float(text)` parsing is `pyFloat`, covering sign/digits/decimal
  point/exponent; the `inf`/`nan`/underscore forms are omitted (no claim
  depends on the parse result).
* `f"{x:.2f}"` is `fmt2` (round to hundredths, half to even); the f-string
  default rendering `f"{x}"` of a float is `pyStrNum` (shortest terminating
  decimal expansion, with `.0` appended for integral values, matching
  Python's `str` on such floats; scientific notation for extreme magnitudes
  is not modelled — every value in the claims is moderate).
* Each JSON store file is `Option (FileContent α)`: `none` when the file does
  not exist, `some (.parsed l)` when it parses as a list of records,
  `some .corrupt` when `json.load` would raise `JSONDecodeError`.
* Each logic function returns `Result × TrackerState`; an uncaught Python
  exception (the `JSONDecodeError` that no function catches) is the
  `.raised` result, and the state component is the state at the moment the
  exception escapes.
* The nondeterministic ingredients (the two timestamp captures and the
  yes/no confirmation dialog) are passed as explicit arguments.
-/

/-- Python strings as lists of code points. -/
abbrev PyStr := List Char

/-- The ASCII whitespace characters removed by Python `str.strip()`. -/
def pyIsSpace (c : Char) : Bool :=
  c.toNat == 32 || c.toNat == 9 || c.toNat == 10 || c.toNat == 13 ||
    c.toNat == 11 || c.toNat == 12

/-- ASCII lowering of one character, the model of `str.lower()` per character. -/
def pyLowerChar (c : Char) : Char :=
  if 65 ≤ c.toNat ∧ c.toNat ≤ 90 then Char.ofNat (c.toNat + 32) else c

/-- Model of Python `str.lower()`. -/
def pyLower (s : PyStr) : PyStr := s.map pyLowerChar

/-- Model of Python `str.strip()`: drop whitespace from both ends. -/
def pyStrip (s : PyStr) : PyStr :=
  ((s.dropWhile pyIsSpace).reverse.dropWhile pyIsSpace).reverse

/-- Numeric value of a decimal digit character, `none` on other characters. -/
def digitVal (c : Char) : Option Nat :=
  if 48 ≤ c.toNat ∧ c.toNat ≤ 57 then some (c.toNat - 48) else none

/-- Split a string into its leading run of decimal digits and the rest. -/
def takeDigits : PyStr → List Nat × PyStr
  | [] => ([], [])
  | c :: t =>
    match digitVal c with
    | some d => let (ds, r) := takeDigits t; (d :: ds, r)
    | none => ([], c :: t)

/-- Value of a big-endian digit list. -/
def digitsVal (ds : List Nat) : Nat := ds.foldl (fun a d => a * 10 + d) 0

/-- Read an optional leading sign, returning the sign as a rational factor. -/
def readSign : PyStr → ℚ × PyStr
  | '-' :: t => (-1, t)
  | '+' :: t => (1, t)
  | s => (1, s)

/-- Model of Python `float(text)`: optional surrounding whitespace, optional
sign, digits with optional fractional part, optional exponent.  Returns
`none` where Python raises `ValueError`. -/
def pyFloat (s : PyStr) : Option ℚ :=
  let s1 := pyStrip s
  let (sgn, s2) := readSign s1
  let (ip, s3) := takeDigits s2
  let (fp, s4) :=
    match s3 with
    | '.' :: t => takeDigits t
    | _ => ([], s3)
  if ip = [] ∧ fp = [] then none
  else
    let mant : ℚ := (digitsVal ip : ℚ) + (digitsVal fp : ℚ) / (10 : ℚ) ^ fp.length
    match s4 with
    | [] => some (sgn * mant)
    | e :: t =>
      if e == 'e' || e == 'E' then
        let (esgn, t1) := readSign t
        let (ed, t2) := takeDigits t1
        if ed = [] ∨ t2 ≠ [] then none
        else some (sgn * mant * (10 : ℚ) ^ ((if esgn < 0 then -(digitsVal ed : ℤ) else (digitsVal ed : ℤ))))
      else none

/-- Decimal digits of a natural number, via the standard library. -/
def natDigits (n : Nat) : PyStr := Nat.toDigits 10 n

/-- Round a rational to the nearest integer, ties to even (the rounding used
by float formatting). -/
def roundHalfEven (q : ℚ) : ℤ :=
  let f := ⌊q⌋
  if q - f < 1 / 2 then f
  else if (1 : ℚ) / 2 < q - f then f + 1
  else if f % 2 = 0 then f else f + 1

/-- Render a nonnegative count of hundredths as `intpart.dd`. -/
def fmt2core (m : Nat) : PyStr :=
  natDigits (m / 100) ++ '.' :: [Nat.digitChar (m / 10 % 10), Nat.digitChar (m % 10)]

/-- Model of the f-string conversion `{x:.2f}`: fixed two decimal places. -/
def fmt2 (q : ℚ) : PyStr :=
  let n := roundHalfEven (q * 100)
  if n < 0 then '-' :: fmt2core (-n).toNat else fmt2core n.toNat

/-- Smallest exponent `k ≤ 27` such that `q * 10 ^ k` is an integer. -/
def decExp (q : ℚ) : Option Nat :=
  (List.range 28).find? (fun k => (q * (10 : ℚ) ^ k).den == 1)

/-- Fractional digits of `n`, left-padded with zeros to width `k`. -/
def fracDigits (k n : Nat) : PyStr :=
  let ds := natDigits n
  List.replicate (k - ds.length) '0' ++ ds

/-- Default rendering of a nonnegative float value: shortest terminating
decimal form, with `.0` for integral values. -/
def pyStrNumCore (q : ℚ) : PyStr :=
  match decExp q with
  | some 0 => natDigits q.num.toNat ++ ['.', '0']
  | some (k + 1) =>
    let n := (q * (10 : ℚ) ^ (k + 1)).num.toNat
    natDigits (n / 10 ^ (k + 1)) ++ '.' :: fracDigits (k + 1) (n % 10 ^ (k + 1))
  | none =>
    let n := (roundHalfEven (q * (10 : ℚ) ^ 17)).toNat
    natDigits (n / 10 ^ 17) ++ '.' :: fracDigits 17 (n % 10 ^ 17)

/-- Model of the f-string default conversion `{x}` applied to a float. -/
def pyStrNum (q : ℚ) : PyStr :=
  if q < 0 then '-' :: pyStrNumCore (-q) else pyStrNumCore q

/-- A record of the `donors.json` store: `{"name": ..., "contact": ...}`. -/
structure Donor where
  name : PyStr
  contact : PyStr
  deriving DecidableEq

/-- A record of the `donations.json` store:
`{"name": ..., "amount": ..., "date": ...}` (the `name` key holds the donor
name as typed when recording). -/
structure Donation where
  name : PyStr
  amount : ℚ
  date : PyStr
  deriving DecidableEq

/-- Content of an existing store file: either it parses as a list of records
or `json.load` raises `JSONDecodeError` on it. -/
inductive FileContent (α : Type) where
  | parsed (records : List α)
  | corrupt
  deriving DecidableEq

/-- The uncaught Python exception the logic layer can let escape. -/
inductive PyErr where
  | jsonDecode
  deriving DecidableEq

/-- The persistent state the logic layer touches: the two JSON store files
(`none` when the file does not exist) and the names of the receipt files
written so far (receipt content is never read back). -/
structure TrackerState where
  donorsFile : Option (FileContent Donor)
  donationsFile : Option (FileContent Donation)
  receipts : List PyStr
  deriving DecidableEq

/-- Model of `load_data`: a missing file (`FileNotFoundError`) yields `[]`;
a corrupt file raises `JSONDecodeError`, which `load_data` does not catch. -/
def load_data {α : Type} : Option (FileContent α) → Except PyErr (List α)
  | none => .ok []
  | some (.parsed l) => .ok l
  | some .corrupt => .error .jsonDecode

/-- Model of `save_data`: the file now exists and holds exactly `data`. -/
def save_data {α : Type} (data : List α) : Option (FileContent α) :=
  some (.parsed data)

/-- The name comparison the source repeats throughout:
`d['name'].strip().lower() == name.lower()` — the stored name is stripped
and lowered, the query name is only lowered. -/
def matchesName (stored query : PyStr) : Bool :=
  pyLower (pyStrip stored) == pyLower query

/-- Outcomes of `add_donor_logic` (each non-`raised` outcome is one of the
message boxes the function shows before returning). -/
inductive AddRes where
  | raised (e : PyErr)
  | inputError
  | duplicate
  | added
  deriving DecidableEq

/-- Model of `add_donor_logic(name, contact)`. -/
def add_donor_logic (s : TrackerState) (name contact : PyStr) :
    AddRes × TrackerState :=
  match load_data s.donorsFile with
  | .error e => (.raised e, s)
  | .ok donors =>
    if name = [] ∨ contact = [] then (.inputError, s)
    else if donors.any (fun d => matchesName d.name name) then (.duplicate, s)
    else
      (.added,
        { s with donorsFile := save_data (donors ++ [⟨pyStrip name, pyStrip contact⟩]) })

/-- Outcomes of `record_donation_logic`. -/
inductive RecRes where
  | raised (e : PyErr)
  | notFound
  | invalidAmount
  | recorded
  deriving DecidableEq

/-- The receipt file name
`receipt_<name with spaces replaced by underscores>_<stamp>.txt`. -/
def receiptFileName (name stamp : PyStr) : PyStr :=
  "receipt_".data ++ (name.map (fun c => if c = ' ' then '_' else c)) ++
    '_' :: stamp ++ ".txt".data

/-- Model of `record_donation_logic(name, amount)`.  `dateStr` is the
IST timestamp captured for the stored record and `stamp` the second,
independently captured local timestamp used in the receipt file name. -/
def record_donation_logic (s : TrackerState) (name amount dateStr stamp : PyStr) :
    RecRes × TrackerState :=
  match load_data s.donorsFile with
  | .error e => (.raised e, s)
  | .ok donors =>
    match load_data s.donationsFile with
    | .error e => (.raised e, s)
    | .ok donations =>
      match donors.find? (fun d => matchesName d.name name) with
      | none => (.notFound, s)
      | some _ =>
        match pyFloat amount with
        | none => (.invalidAmount, s)
        | some amt =>
          let donation : Donation := ⟨name, amt, dateStr⟩
          (.recorded,
            { s with
                donationsFile := save_data (donations ++ [donation]),
                receipts := s.receipts ++ [receiptFileName name stamp] })

/-- Outcomes of `get_donor_summary`: the returned rows, or an escaped
exception. -/
inductive SumRes where
  | raised (e : PyErr)
  | rows (data : List (PyStr × PyStr × PyStr))
  deriving DecidableEq

/-- Model of `get_donor_summary()`: one `(name, contact, "₹" + total)` row
per donor, the total summing the matching donations' amounts. -/
def get_donor_summary (s : TrackerState) : SumRes × TrackerState :=
  match load_data s.donorsFile with
  | .error e => (.raised e, s)
  | .ok donors =>
    match load_data s.donationsFile with
    | .error e => (.raised e, s)
    | .ok donations =>
      (.rows (donors.map (fun donor =>
        let total :=
          ((donations.filter (fun d =>
            pyLower (pyStrip d.name) == pyLower (pyStrip donor.name))).map
              Donation.amount).sum
        (donor.name, donor.contact, '₹' :: fmt2 total))), s)

/-- The local variables `total`, `avg`, `top` computed by
`generate_report_logic` before it formats the message. -/
structure Report where
  total : ℚ
  avg : ℚ
  top : Donation
  deriving DecidableEq

/-- The substituted fields of the report message f-string, in order:
`{total:.2f}`, `{avg:.2f}`, `{top['name']}`, `{top['amount']}`. -/
structure ReportMsg where
  totalField : PyStr
  avgField : PyStr
  topNameField : PyStr
  topAmountField : PyStr
  deriving DecidableEq

/-- The message fields `generate_report_logic` substitutes into its
`messagebox.showinfo` text. -/
def report_fields (r : Report) : ReportMsg :=
  ⟨fmt2 r.total, fmt2 r.avg, r.top.name, pyStrNum r.top.amount⟩

/-- Outcomes of `generate_report_logic`. -/
inductive RepRes where
  | raised (e : PyErr)
  | noData
  | report (r : Report)
  deriving DecidableEq

/-- Model of Python `max(acc :: rest, key=amount)`: scan left to right,
replacing the current maximum only on a strictly larger amount, so the
first occurrence of the maximal amount wins. -/
def pymaxKey : Donation → List Donation → Donation
  | a, [] => a
  | a, d :: t => pymaxKey (if a.amount < d.amount then d else a) t

/-- Model of `generate_report_logic()`. -/
def generate_report_logic (s : TrackerState) : RepRes × TrackerState :=
  match load_data s.donationsFile with
  | .error e => (.raised e, s)
  | .ok donations =>
    match donations with
    | [] => (.noData, s)
    | d0 :: rest =>
      let total := (((d0 :: rest).map Donation.amount)).sum
      let avg := total / ((d0 :: rest).length : ℚ)
      let top := pymaxKey d0 rest
      (.report ⟨total, avg, top⟩, s)

/-- Outcomes of `delete_specific_donor_logic`. -/
inductive DelRes where
  | raised (e : PyErr)
  | inputError
  | notFound
  | deleted
  | cancelled
  deriving DecidableEq

/-- Model of `delete_specific_donor_logic(name)`; `confirm` is the answer to
the `askyesno` dialog (only reached past validation and the existence
check). -/
def delete_specific_donor_logic (s : TrackerState) (name : PyStr) (confirm : Bool) :
    DelRes × TrackerState :=
  match load_data s.donorsFile with
  | .error e => (.raised e, s)
  | .ok donors =>
    match load_data s.donationsFile with
    | .error e => (.raised e, s)
    | .ok donations =>
      if name = [] then (.inputError, s)
      else if ¬ donors.any (fun d => matchesName d.name name) then (.notFound, s)
      else if confirm then
        (.deleted,
          { s with
              donorsFile := save_data (donors.filter (fun d => ¬ matchesName d.name name)),
              donationsFile := save_data (donations.filter (fun d => ¬ matchesName d.name name)) })
      else (.cancelled, s)

/-- Outcomes of `delete_all_data_logic`. -/
inductive DelAllRes where
  | deleted
  | cancelled
  deriving DecidableEq

/-- Model of `delete_all_data_logic()`: on confirmation both store files are
removed (`os.remove`); the receipts folder is untouched. -/
def delete_all_data_logic (s : TrackerState) (confirm : Bool) :
    DelAllRes × TrackerState :=
  if confirm then (.deleted, { s with donorsFile := none, donationsFile := none })
  else (.cancelled, s)

/-- The fresh state: neither store file has ever been created. -/
def stEmpty : TrackerState := ⟨none, none, []⟩

/-- State holding the single donor Alice (as `add_donor_logic` would store
her). -/
def stAlice : TrackerState :=
  ⟨save_data [⟨"Alice".data, "c".data⟩], none, []⟩

/-- State holding the donor Alice and one donation of 5 recorded for her. -/
def stAliceDon : TrackerState :=
  ⟨save_data [⟨"Alice".data, "c".data⟩],
   save_data [⟨"Alice".data, 5, "d".data⟩], []⟩

/-- State holding the single donor Bob and no donations. -/
def stBob : TrackerState :=
  ⟨save_data [⟨"Bob".data, "c".data⟩], none, []⟩

/-- State whose donors store file exists but does not parse. -/
def stCorruptDonors : TrackerState := ⟨some .corrupt, none, []⟩

/-- State whose donations store file exists but does not parse. -/
def stCorruptDonations : TrackerState := ⟨none, some .corrupt, []⟩

/-- State in which both store files exist but neither parses. -/
def stAllCorrupt : TrackerState := ⟨some .corrupt, some .corrupt, []⟩

/-- Three donations of 10, 20 and 30 (the spec's report example). -/
def donsThree : List Donation :=
  [⟨"A".data, 10, "d1".data⟩, ⟨"B".data, 20, "d2".data⟩,
   ⟨"C".data, 30, "d3".data⟩]

/-- State with the three donations of 10, 20 and 30. -/
def stThree : TrackerState := ⟨none, save_data donsThree, []⟩

/-! Helper lemmas about the string model. -/

theorem toNat_pyLowerChar_upper {c : Char} (h1 : 65 ≤ c.toNat) (h2 : c.toNat ≤ 90) :
    (pyLowerChar c).toNat = c.toNat + 32 := by
  unfold pyLowerChar
  rw [if_pos ⟨h1, h2⟩]
  have hv : (c.toNat + 32).isValidChar := Or.inl (by omega)
  rw [Char.ofNat, dif_pos hv]
  simp [Char.ofNatAux, Char.toNat, UInt32.toNat, BitVec.toNat_ofNatLt]

theorem pyIsSpace_pyLowerChar (c : Char) : pyIsSpace (pyLowerChar c) = pyIsSpace c := by
  by_cases h : 65 ≤ c.toNat ∧ c.toNat ≤ 90
  · have ht := toNat_pyLowerChar_upper h.1 h.2
    have h1 := h.1
    have h2 := h.2
    unfold pyIsSpace
    rw [ht]
    have hl : (c.toNat + 32 == 32 || c.toNat + 32 == 9 || c.toNat + 32 == 10 ||
        c.toNat + 32 == 13 || c.toNat + 32 == 11 || c.toNat + 32 == 12) = false := by
      simp only [Bool.or_eq_false_iff, beq_eq_false_iff_ne, ne_eq]
      omega
    have hr : (c.toNat == 32 || c.toNat == 9 || c.toNat == 10 ||
        c.toNat == 13 || c.toNat == 11 || c.toNat == 12) = false := by
      simp only [Bool.or_eq_false_iff, beq_eq_false_iff_ne, ne_eq]
      omega
    rw [hl, hr]
  · unfold pyLowerChar
    rw [if_neg h]

theorem pyLower_dropWhile (s : PyStr) :
    (pyLower s).dropWhile pyIsSpace = pyLower (s.dropWhile pyIsSpace) := by
  have hp : (pyIsSpace ∘ pyLowerChar) = pyIsSpace :=
    funext (fun c => pyIsSpace_pyLowerChar c)
  unfold pyLower
  rw [List.dropWhile_map, hp]

theorem pyLower_reverse (s : PyStr) : (pyLower s).reverse = pyLower s.reverse := by
  unfold pyLower
  rw [List.map_reverse]

theorem pyStrip_pyLower (s : PyStr) : pyStrip (pyLower s) = pyLower (pyStrip s) := by
  unfold pyStrip
  rw [pyLower_dropWhile, pyLower_reverse, pyLower_dropWhile, pyLower_reverse]

theorem dropWhile_dropWhile {α : Type} (p : α → Bool) (l : List α) :
    (l.dropWhile p).dropWhile p = l.dropWhile p := by
  induction l with
  | nil => rfl
  | cons c t ih =>
    by_cases h : p c
    · rw [List.dropWhile_cons_of_pos h, ih]
    · rw [List.dropWhile_cons_of_neg h, List.dropWhile_cons_of_neg h]

theorem exists_prefix_dropWhile {α : Type} (p : α → Bool) (l : List α) :
    ∃ u, l = u ++ l.dropWhile p := by
  induction l with
  | nil => exact ⟨[], rfl⟩
  | cons c t ih =>
    by_cases h : p c
    · obtain ⟨u, hu⟩ := ih
      refine ⟨c :: u, ?_⟩
      rw [List.dropWhile_cons_of_pos h, List.cons_append, ← hu]
    · exact ⟨[], by rw [List.dropWhile_cons_of_neg h]; rfl⟩

theorem head?_dropWhile_false {α : Type} (p : α → Bool) (l : List α) {c : α}
    (h : (l.dropWhile p).head? = some c) : p c = false := by
  induction l with
  | nil => simp [List.dropWhile] at h
  | cons a t ih =>
    by_cases hp : p a
    · rw [List.dropWhile_cons_of_pos hp] at h
      exact ih h
    · rw [List.dropWhile_cons_of_neg hp] at h
      have : a = c := by simpa using h
      rw [← this]
      exact Bool.not_eq_true _ ▸ (by simpa using hp)

theorem dropWhile_eq_self_of_head? {α : Type} (p : α → Bool) (l : List α)
    (h : ∀ c, l.head? = some c → p c = false) : l.dropWhile p = l := by
  cases l with
  | nil => rfl
  | cons a t =>
    have := h a rfl
    exact List.dropWhile_cons_of_neg (by simp [this])

theorem pyStrip_idem (s : PyStr) : pyStrip (pyStrip s) = pyStrip s := by
  unfold pyStrip
  have h1 : (((s.dropWhile pyIsSpace).reverse.dropWhile pyIsSpace).reverse).dropWhile pyIsSpace =
      ((s.dropWhile pyIsSpace).reverse.dropWhile pyIsSpace).reverse := by
    apply dropWhile_eq_self_of_head?
    intro c hc
    obtain ⟨u, hu⟩ := exists_prefix_dropWhile pyIsSpace (s.dropWhile pyIsSpace).reverse
    set B := (s.dropWhile pyIsSpace).reverse.dropWhile pyIsSpace with hB
    cases hBr : B.reverse with
    | nil => rw [hBr] at hc; simp at hc
    | cons b bt =>
      rw [hBr] at hc
      have hcb : b = c := by simpa using hc
      have hrev : s.dropWhile pyIsSpace = B.reverse ++ u.reverse := by
        have := congrArg List.reverse hu
        simpa using this
      have hhead : (s.dropWhile pyIsSpace).head? = some b := by
        rw [hrev, hBr]
        rfl
      have := head?_dropWhile_false pyIsSpace s hhead
      rw [← hcb]
      exact this
  rw [h1, List.reverse_reverse, dropWhile_dropWhile]

theorem trim_match_of_match {a b : PyStr}
    (h : pyLower (pyStrip a) = pyLower b) :
    pyLower (pyStrip a) = pyLower (pyStrip b) := by
  have h2 := congrArg pyStrip h
  rw [pyStrip_pyLower, pyStrip_pyLower, pyStrip_idem] at h2
  exact h2

theorem pymaxKey_spec : ∀ (l : List Donation) (a : Donation),
    ∃ i, ∃ h : i < (a :: l).length,
      (a :: l).get ⟨i, h⟩ = pymaxKey a l ∧
      (∀ x ∈ a :: l, x.amount ≤ (pymaxKey a l).amount) ∧
      (∀ x ∈ (a :: l).take i, x.amount < (pymaxKey a l).amount) := by
  intro l
  induction l with
  | nil =>
    intro a
    refine ⟨0, by simp, rfl, ?_, by simp⟩
    intro x hx
    have : x = a := by simpa using hx
    rw [this]
    rfl
  | cons d t ih =>
    intro a
    by_cases hlt : a.amount < d.amount
    · have hd : pymaxKey a (d :: t) = pymaxKey d t := by
        have hstep : pymaxKey a (d :: t) =
            pymaxKey (if a.amount < d.amount then d else a) t := rfl
        rw [hstep, if_pos hlt]
      obtain ⟨i, hi, hget, hmax, hstrict⟩ := ih d
      refine ⟨i + 1, by simpa using hi, ?_, ?_, ?_⟩
      · rw [hd]
        simpa using hget
      · intro x hx
        rw [hd]
        rcases List.mem_cons.mp hx with rfl | hx2
        · have hdle : d.amount ≤ (pymaxKey d t).amount :=
            hmax d (List.mem_cons_self d t)
          exact le_of_lt (lt_of_lt_of_le hlt hdle)
        · exact hmax x hx2
      · intro x hx
        rw [hd]
        rw [List.take_succ_cons] at hx
        rcases List.mem_cons.mp hx with rfl | hx2
        · have hdle : d.amount ≤ (pymaxKey d t).amount :=
            hmax d (List.mem_cons_self d t)
          exact lt_of_lt_of_le hlt hdle
        · exact hstrict x hx2
    · have hd : pymaxKey a (d :: t) = pymaxKey a t := by
        have hstep : pymaxKey a (d :: t) =
            pymaxKey (if a.amount < d.amount then d else a) t := rfl
        rw [hstep, if_neg hlt]
      have hda : d.amount ≤ a.amount := not_lt.mp hlt
      obtain ⟨i, hi, hget, hmax, hstrict⟩ := ih a
      cases i with
      | zero =>
        have hga : pymaxKey a t = a := by simpa using hget.symm
        refine ⟨0, by simp, ?_, ?_, by simp⟩
        · rw [hd, hga]
          rfl
        · intro x hx
          rw [hd, hga]
          rcases List.mem_cons.mp hx with rfl | hx2
          · exact le_refl _
          · rcases List.mem_cons.mp hx2 with rfl | hx3
            · exact hda
            · have := hmax x (List.mem_cons_of_mem a hx3)
              rw [hga] at this
              exact this
      | succ k =>
        have hget2 : t.get ⟨k, by simpa using hi⟩ = pymaxKey a t := by
          simpa using hget
        refine ⟨k + 2, by simpa using hi, ?_, ?_, ?_⟩
        · rw [hd]
          simpa using hget2
        · intro x hx
          rw [hd]
          rcases List.mem_cons.mp hx with rfl | hx2
          · exact hmax x (List.mem_cons_self x t)
          · rcases List.mem_cons.mp hx2 with rfl | hx3
            · exact le_trans hda (hmax a (List.mem_cons_self a t))
            · exact hmax x (List.mem_cons_of_mem a hx3)
        · intro x hx
          rw [hd]
          rw [List.take_succ_cons, List.take_succ_cons] at hx
          have hamem : a ∈ (a :: t).take (k + 1) := by
            rw [List.take_succ_cons]
            exact List.mem_cons_self a _
          have halt : a.amount < (pymaxKey a t).amount := hstrict a hamem
          rcases List.mem_cons.mp hx with rfl | hx2
          · exact halt
          · rcases List.mem_cons.mp hx2 with rfl | hx3
            · exact lt_of_le_of_lt hda halt
            · have : x ∈ (a :: t).take (k + 1) := by
                rw [List.take_succ_cons]
                exact List.mem_cons_of_mem a hx3
              exact hstrict x this

/-! Evaluation lemmas: the rational arithmetic inside the formatting
functions does not reduce definitionally, so these lemmas evaluate the
formatters on integer-valued rationals. -/

theorem roundHalfEven_intCast (m : ℤ) : roundHalfEven ((m : ℚ)) = m := by
  simp only [roundHalfEven, Int.floor_intCast, sub_self]
  rw [if_pos (by norm_num)]

theorem fmt2_natCast (n : ℕ) : fmt2 ((n : ℚ)) = fmt2core (n * 100) := by
  unfold fmt2
  have h1 : (n : ℚ) * 100 = (((n * 100 : ℕ) : ℤ) : ℚ) := by push_cast; ring
  rw [h1, roundHalfEven_intCast]
  rw [if_neg (not_lt.mpr (Int.natCast_nonneg _))]
  congr 1

theorem decExp_natCast (n : ℕ) : decExp ((n : ℚ)) = some 0 := by
  unfold decExp
  rw [List.range_succ_eq_map]
  apply List.find?_cons_of_pos
  simp

theorem pyStrNum_natCast (n : ℕ) : pyStrNum ((n : ℚ)) = natDigits n ++ ['.', '0'] := by
  unfold pyStrNum
  rw [if_neg (not_lt.mpr (by positivity))]
  unfold pyStrNumCore
  rw [decExp_natCast]
  simp

/-- Claim C1: the claim is refuted at a concrete input.  The store holds the
donor "Alice", and the input name " Alice" has the same trimmed,
case-insensitive name (first conjunct); yet `add_donor_logic` succeeds and
appends a second donor whose stored name is again "Alice", so the donor
store changes and afterwards two donors share the same trimmed,
case-insensitive name.  The duplicate check lowercases but does not trim
the input name, so " alice" fails to match the stored "alice". -/
theorem c1_counterexample :
    pyLower (pyStrip "Alice".data) = pyLower (pyStrip " Alice".data) ∧
    load_data stAlice.donorsFile = .ok [⟨"Alice".data, "c".data⟩] ∧
    add_donor_logic stAlice " Alice".data "c".data =
      (.added, ⟨save_data [⟨"Alice".data, "c".data⟩, ⟨"Alice".data, "c".data⟩],
        none, []⟩) :=
  ⟨by decide, rfl, by decide⟩

/-- Claim C1 (amended): for non-empty inputs, `add_donor_logic` fails with
the duplicate message box and leaves the state unchanged when some stored
donor's trimmed, lowercased name equals the lowercased input name taken
verbatim (not trimmed).  Inputs with surrounding whitespace bypass this
check, so the trimmed case-insensitive uniqueness invariant can be
violated. -/
theorem c1_amended (s : TrackerState) (donors : List Donor) (name contact : PyStr)
    (hload : load_data s.donorsFile = .ok donors)
    (hn : name ≠ []) (hc : contact ≠ [])
    (hdup : ∃ d ∈ donors, pyLower (pyStrip d.name) = pyLower name) :
    add_donor_logic s name contact = (.duplicate, s) := by
  simp only [add_donor_logic, hload]
  rw [if_neg (not_or.mpr ⟨hn, hc⟩)]
  have hany : donors.any (fun d => matchesName d.name name) = true := by
    obtain ⟨d, hd, he⟩ := hdup
    exact List.any_eq_true.mpr ⟨d, hd, by simp [matchesName, he]⟩
  rw [if_pos hany]

/-- Concrete instance of `c1_amended`: adding "ALICE" over the stored
"Alice" is rejected as a duplicate and changes nothing. -/
theorem c1_amended_witness :
    add_donor_logic stAlice "ALICE".data "x".data = (.duplicate, stAlice) :=
  c1_amended stAlice [⟨"Alice".data, "c".data⟩] "ALICE".data "x".data
    rfl (by decide) (by decide)
    ⟨⟨"Alice".data, "c".data⟩, by decide, by decide⟩

/-- Claim C2: the claim is refuted at a concrete input.  The name " " is
empty after trimming (first conjunct), but `add_donor_logic` does not fail
with the validation message: the emptiness test `not name` sees the
untrimmed string, so the call succeeds and appends a donor whose stored
(trimmed) name is the empty string. -/
theorem c2_counterexample :
    pyStrip " ".data = ([] : PyStr) ∧
    add_donor_logic stEmpty " ".data "x".data =
      (.added, ⟨save_data [⟨[], "x".data⟩], none, []⟩) :=
  ⟨by decide, by decide⟩

/-- Claim C2 (amended): `add_donor_logic` fails with the validation message
box and leaves the state unchanged exactly when the name or the contact is
the empty string before trimming; whitespace-only inputs pass validation. -/
theorem c2_amended (s : TrackerState) (donors : List Donor) (name contact : PyStr)
    (hload : load_data s.donorsFile = .ok donors)
    (h : name = [] ∨ contact = []) :
    add_donor_logic s name contact = (.inputError, s) := by
  simp only [add_donor_logic, hload]
  rw [if_pos h]

/-- Concrete instance of `c2_amended`: an empty name is rejected with the
validation message and the state is unchanged. -/
theorem c2_amended_witness :
    add_donor_logic stEmpty [] "x".data = (.inputError, stEmpty) :=
  c2_amended stEmpty [] [] "x".data rfl (Or.inl rfl)

/-- Claim C3: the claim is refuted at a concrete input.  With donations of
10, 20 and 30, the report's total and average fields are two-decimal
("60.00", "20.00"), but the top donation's amount field is substituted
with Python's default float rendering "30.0", not the two-decimal
"30.00". -/
theorem c3_counterexample :
    (generate_report_logic stThree).1 =
      .report ⟨60, 20, ⟨"C".data, 30, "d3".data⟩⟩ ∧
    (report_fields ⟨60, 20, ⟨"C".data, 30, "d3".data⟩⟩).totalField = "60.00".data ∧
    (report_fields ⟨60, 20, ⟨"C".data, 30, "d3".data⟩⟩).avgField = "20.00".data ∧
    (report_fields ⟨60, 20, ⟨"C".data, 30, "d3".data⟩⟩).topAmountField = "30.0".data ∧
    fmt2 (30 : ℚ) = "30.00".data ∧
    "30.0".data ≠ "30.00".data := by
  have h30 : (30 : ℚ) = ((30 : ℕ) : ℚ) := by norm_num
  have h60 : (60 : ℚ) = ((60 : ℕ) : ℚ) := by norm_num
  have h20 : (20 : ℚ) = ((20 : ℕ) : ℚ) := by norm_num
  refine ⟨?_, ?_, ?_, ?_, ?_, by decide⟩
  · simp only [generate_report_logic, stThree, donsThree, load_data, save_data]
    norm_num [pymaxKey]
  · show fmt2 (60 : ℚ) = _
    rw [h60, fmt2_natCast]
    decide
  · show fmt2 (20 : ℚ) = _
    rw [h20, fmt2_natCast]
    decide
  · show pyStrNum (30 : ℚ) = _
    rw [h30, pyStrNum_natCast]
    decide
  · rw [h30, fmt2_natCast]
    decide

/-- Claim C3 (amended): when the donation list is non-empty the report
message substitutes the total and the average formatted to exactly two
decimal places and the top donation's donor name as stored, but the top
donation's amount with Python's default float rendering (one decimal digit
for integral amounts), not a two-decimal format. -/
theorem c3_amended (s : TrackerState) (d0 : Donation) (rest : List Donation)
    (hload : load_data s.donationsFile = .ok (d0 :: rest)) :
    ∃ r : Report,
      generate_report_logic s = (.report r, s) ∧
      r.total = (((d0 :: rest).map Donation.amount)).sum ∧
      r.avg = r.total / (((d0 :: rest).length : ℚ)) ∧
      r.top = pymaxKey d0 rest ∧
      (report_fields r).totalField = fmt2 r.total ∧
      (report_fields r).avgField = fmt2 r.avg ∧
      (report_fields r).topNameField = r.top.name ∧
      (report_fields r).topAmountField = pyStrNum r.top.amount := by
  refine ⟨⟨(((d0 :: rest).map Donation.amount)).sum,
    (((d0 :: rest).map Donation.amount)).sum / (((d0 :: rest).length : ℚ)),
    pymaxKey d0 rest⟩, ?_, rfl, rfl, rfl, rfl, rfl, rfl, rfl⟩
  simp only [generate_report_logic, hload]

/-- Concrete instance of `c3_amended` at the 10/20/30 donation list. -/
theorem c3_amended_witness :
    ∃ r : Report,
      generate_report_logic stThree = (.report r, stThree) ∧
      r.total = ((donsThree.map Donation.amount)).sum ∧
      r.avg = r.total / ((donsThree.length : ℚ)) ∧
      r.top = pymaxKey ⟨"A".data, 10, "d1".data⟩
        [⟨"B".data, 20, "d2".data⟩, ⟨"C".data, 30, "d3".data⟩] ∧
      (report_fields r).totalField = fmt2 r.total ∧
      (report_fields r).avgField = fmt2 r.avg ∧
      (report_fields r).topNameField = r.top.name ∧
      (report_fields r).topAmountField = pyStrNum r.top.amount :=
  c3_amended stThree ⟨"A".data, 10, "d1".data⟩
    [⟨"B".data, 20, "d2".data⟩, ⟨"C".data, 30, "d3".data⟩] rfl

/-- Claim C4: the claim is refuted at concrete inputs.  When a store file
exists but does not parse, the operations do not catch the failure at
their own boundary: the `JSONDecodeError` escapes `add_donor_logic`,
`get_donor_summary` and `generate_report_logic` (outcome `.raised`), since
`load_data` only catches `FileNotFoundError`. -/
theorem c4_counterexample :
    add_donor_logic stCorruptDonors "Al".data "cc".data =
      (.raised .jsonDecode, stCorruptDonors) ∧
    get_donor_summary stCorruptDonors = (.raised .jsonDecode, stCorruptDonors) ∧
    generate_report_logic stCorruptDonations =
      (.raised .jsonDecode, stCorruptDonations) :=
  ⟨rfl, rfl, rfl⟩

/-- Claim C4 (amended): loading a store that has never been created yields
the empty list; loading a store that exists but cannot be parsed raises a
parse error that every operation lets propagate uncaught, leaving the
prior state untouched. -/
theorem c4_amended (s : TrackerState) (name contact amt dt st : PyStr) :
    (load_data (none : Option (FileContent Donor)) = .ok ([] : List Donor)) ∧
    (load_data (none : Option (FileContent Donation)) = .ok ([] : List Donation)) ∧
    (s.donorsFile = some .corrupt →
      add_donor_logic s name contact = (.raised .jsonDecode, s) ∧
      record_donation_logic s name amt dt st = (.raised .jsonDecode, s) ∧
      get_donor_summary s = (.raised .jsonDecode, s) ∧
      delete_specific_donor_logic s name true = (.raised .jsonDecode, s) ∧
      delete_specific_donor_logic s name false = (.raised .jsonDecode, s)) ∧
    (s.donationsFile = some .corrupt →
      generate_report_logic s = (.raised .jsonDecode, s)) := by
  refine ⟨rfl, rfl, ?_, ?_⟩
  · intro h
    refine ⟨?_, ?_, ?_, ?_, ?_⟩ <;>
      simp [add_donor_logic, record_donation_logic, get_donor_summary,
        delete_specific_donor_logic, h, load_data]
  · intro h
    simp [generate_report_logic, h, load_data]

/-- Concrete instance of `c4_amended`: with both store files corrupt, the
parse error escapes both a donor operation and the report operation. -/
theorem c4_amended_witness :
    add_donor_logic stAllCorrupt "A".data "B".data =
      (.raised .jsonDecode, stAllCorrupt) ∧
    generate_report_logic stAllCorrupt = (.raised .jsonDecode, stAllCorrupt) :=
  ⟨((c4_amended stAllCorrupt "A".data "B".data "1".data "d".data "t".data).2.2.1
      rfl).1,
   (c4_amended stAllCorrupt "A".data "B".data "1".data "d".data "t".data).2.2.2
      rfl⟩

/-- Claim C5 (confirmed): with an empty donation list `generate_report_logic`
returns the no-data signal; with a non-empty one it returns a report whose
total is the sum of all amounts, whose average is the total divided by the
count, and whose top donation occurs in the list, has maximal amount, and
strictly exceeds every earlier donation's amount (first occurrence wins
ties). -/
theorem c5_report (s : TrackerState) (donations : List Donation)
    (hload : load_data s.donationsFile = .ok donations) :
    (donations = [] → generate_report_logic s = (.noData, s)) ∧
    (∀ d0 rest, donations = d0 :: rest →
      ∃ r : Report,
        generate_report_logic s = (.report r, s) ∧
        r.total = ((donations.map Donation.amount)).sum ∧
        r.avg = r.total / ((donations.length : ℚ)) ∧
        ∃ i, ∃ h : i < donations.length,
          donations.get ⟨i, h⟩ = r.top ∧
          (∀ x ∈ donations, x.amount ≤ r.top.amount) ∧
          (∀ x ∈ donations.take i, x.amount < r.top.amount)) := by
  constructor
  · intro h
    subst h
    simp only [generate_report_logic, hload]
  · intro d0 rest h
    subst h
    refine ⟨⟨(((d0 :: rest).map Donation.amount)).sum,
      (((d0 :: rest).map Donation.amount)).sum / (((d0 :: rest).length : ℚ)),
      pymaxKey d0 rest⟩, ?_, rfl, rfl, ?_⟩
    · simp only [generate_report_logic, hload]
    · exact pymaxKey_spec rest d0

/-- Concrete instances of `c5_report`: the empty store reports no data, and
the 10/20/30 list yields a report with the stated structure. -/
theorem c5_report_witness :
    generate_report_logic stEmpty = (.noData, stEmpty) ∧
    (∃ r : Report,
      generate_report_logic stThree = (.report r, stThree) ∧
      r.total = ((donsThree.map Donation.amount)).sum ∧
      r.avg = r.total / ((donsThree.length : ℚ)) ∧
      ∃ i, ∃ h : i < donsThree.length,
        donsThree.get ⟨i, h⟩ = r.top ∧
        (∀ x ∈ donsThree, x.amount ≤ r.top.amount) ∧
        (∀ x ∈ donsThree.take i, x.amount < r.top.amount)) :=
  ⟨(c5_report stEmpty [] rfl).1 rfl,
   (c5_report stThree donsThree rfl).2 ⟨"A".data, 10, "d1".data⟩
     [⟨"B".data, 20, "d2".data⟩, ⟨"C".data, 30, "d3".data⟩] rfl⟩

/-- Claim C6 (confirmed): `get_donor_summary` returns one row per donor in
donor-list order; the row for donor `i` holds the donor's name, contact,
and the currency-prefixed two-decimal total of exactly those donations
whose stored name, trimmed and lowercased, equals the donor's trimmed and
lowercased name.  The state is unchanged, and an empty donor list yields
an empty row list. -/
theorem c6_summary (s : TrackerState) (donors : List Donor) (donations : List Donation)
    (h1 : load_data s.donorsFile = .ok donors)
    (h2 : load_data s.donationsFile = .ok donations) :
    ∃ rows : List (PyStr × PyStr × PyStr),
      get_donor_summary s = (.rows rows, s) ∧
      rows.length = donors.length ∧
      (∀ i (hi : i < donors.length) (hi2 : i < rows.length),
        rows.get ⟨i, hi2⟩ =
          ((donors.get ⟨i, hi⟩).name, (donors.get ⟨i, hi⟩).contact,
            '₹' :: fmt2 (((donations.filter (fun d =>
              pyLower (pyStrip d.name) ==
                pyLower (pyStrip (donors.get ⟨i, hi⟩).name))).map
                  Donation.amount).sum))) ∧
      (donors = [] → rows = []) := by
  refine ⟨donors.map (fun donor =>
      (donor.name, donor.contact,
        '₹' :: fmt2 (((donations.filter (fun d =>
          pyLower (pyStrip d.name) == pyLower (pyStrip donor.name))).map
            Donation.amount).sum))), ?_, by simp, ?_, ?_⟩
  · simp only [get_donor_summary, h1, h2]
  · intro i hi hi2
    simp [List.get_eq_getElem, List.getElem_map]
  · intro h
    subst h
    rfl

/-- Concrete instance of `c6_summary` at the Alice store. -/
theorem c6_summary_witness :
    ∃ rows : List (PyStr × PyStr × PyStr),
      get_donor_summary stAliceDon = (.rows rows, stAliceDon) ∧
      rows.length = [Donor.mk "Alice".data "c".data].length ∧
      (∀ i (hi : i < [Donor.mk "Alice".data "c".data].length)
          (hi2 : i < rows.length),
        rows.get ⟨i, hi2⟩ =
          (([Donor.mk "Alice".data "c".data].get ⟨i, hi⟩).name,
           ([Donor.mk "Alice".data "c".data].get ⟨i, hi⟩).contact,
            '₹' :: fmt2 ((([(⟨"Alice".data, 5, "d".data⟩ : Donation)].filter (fun d =>
              pyLower (pyStrip d.name) ==
                pyLower (pyStrip ([Donor.mk "Alice".data "c".data].get
                  ⟨i, hi⟩).name))).map Donation.amount).sum))) ∧
      ([Donor.mk "Alice".data "c".data] = ([] : List Donor) → rows = []) :=
  c6_summary stAliceDon [Donor.mk "Alice".data "c".data]
    [⟨"Alice".data, 5, "d".data⟩] rfl rfl

/-- Claim C7: the claim is refuted at a concrete input.  The input " Alice"
matches the stored donor "Alice" under the trimmed, case-insensitive rule
(first conjunct), but even with the confirmation signal true
`delete_specific_donor_logic` reports not-found and removes nothing: the
existence check lowercases but does not trim the input name. -/
theorem c7_counterexample :
    pyLower (pyStrip " Alice".data) = pyLower (pyStrip "Alice".data) ∧
    delete_specific_donor_logic stAliceDon " Alice".data true =
      (.notFound, stAliceDon) :=
  ⟨by decide, by decide⟩

/-- Claim C7 (amended): for a non-empty name, when some stored donor's
trimmed lowercased name equals the lowercased input name taken verbatim
(not trimmed), confirmation true removes every donor and every donation
matching that rule and persists both stores, while confirmation false
leaves the state unchanged and reports no error. -/
theorem c7_amended (s : TrackerState) (donors : List Donor)
    (donations : List Donation) (name : PyStr)
    (h1 : load_data s.donorsFile = .ok donors)
    (h2 : load_data s.donationsFile = .ok donations)
    (hn : name ≠ [])
    (hmatch : ∃ d ∈ donors, pyLower (pyStrip d.name) = pyLower name) :
    delete_specific_donor_logic s name true =
      (.deleted,
        { s with
            donorsFile :=
              save_data (donors.filter (fun d => ¬ matchesName d.name name)),
            donationsFile :=
              save_data (donations.filter (fun d => ¬ matchesName d.name name)) }) ∧
    delete_specific_donor_logic s name false = (.cancelled, s) := by
  have hany : donors.any (fun d => matchesName d.name name) = true := by
    obtain ⟨d, hd, he⟩ := hmatch
    exact List.any_eq_true.mpr ⟨d, hd, by simp [matchesName, he]⟩
  constructor
  · simp only [delete_specific_donor_logic, h1, h2]
    rw [if_neg hn, if_neg (by simp [hany])]
    rfl
  · simp only [delete_specific_donor_logic, h1, h2]
    rw [if_neg hn, if_neg (by simp [hany])]
    rfl

/-- Concrete instance of `c7_amended`: deleting "Alice" with confirmation
removes the donor and her donation; without confirmation nothing
changes. -/
theorem c7_amended_witness :
    delete_specific_donor_logic stAliceDon "Alice".data true =
      (.deleted, ⟨save_data [], save_data [], []⟩) ∧
    delete_specific_donor_logic stAliceDon "Alice".data false =
      (.cancelled, stAliceDon) :=
  c7_amended stAliceDon [⟨"Alice".data, "c".data⟩] [⟨"Alice".data, 5, "d".data⟩]
    "Alice".data rfl rfl (by decide)
    ⟨⟨"Alice".data, "c".data⟩, by decide, by decide⟩

/-- Claim C8 (confirmed): when no stored donor's trimmed, lowercased name
equals the trimmed, lowercased input name, `record_donation_logic` reports
not-found and leaves the entire state unchanged — no donation is appended
and no receipt file is created.  (The code compares the untrimmed input;
the lemma `trim_match_of_match` shows an untrimmed match would imply a
trimmed one, so no code-level match exists either.) -/
theorem c8_notfound (s : TrackerState) (donors : List Donor)
    (donations : List Donation) (name amt dt st : PyStr)
    (h1 : load_data s.donorsFile = .ok donors)
    (h2 : load_data s.donationsFile = .ok donations)
    (hmatch : ∀ d ∈ donors, pyLower (pyStrip d.name) ≠ pyLower (pyStrip name)) :
    record_donation_logic s name amt dt st = (.notFound, s) := by
  have hfind : donors.find? (fun d => matchesName d.name name) = none := by
    apply List.find?_eq_none.mpr
    intro d hd
    simp only [matchesName, beq_iff_eq]
    intro hcontra
    exact hmatch d hd (trim_match_of_match hcontra)
  simp only [record_donation_logic, h1, h2, hfind]

/-- Concrete instance of `c8_notfound`: recording for the unknown "Alice"
over the store holding only "Bob" reports not-found and changes nothing. -/
theorem c8_notfound_witness :
    record_donation_logic stBob "Alice".data "10".data "d".data "t".data =
      (.notFound, stBob) :=
  c8_notfound stBob [⟨"Bob".data, "c".data⟩] [] "Alice".data "10".data "d".data
    "t".data rfl rfl (by decide)

/-- Claim C9 (confirmed): with confirmation true `delete_all_data_logic`
removes both store files (they cease to exist; receipts are untouched),
and loading a non-existent store of either kind yields the empty list;
with confirmation false the call is a no-op. -/
theorem c9_delete_all (s : TrackerState) :
    delete_all_data_logic s true = (.deleted, ⟨none, none, s.receipts⟩) ∧
    load_data (none : Option (FileContent Donor)) = .ok [] ∧
    load_data (none : Option (FileContent Donation)) = .ok [] ∧
    delete_all_data_logic s false = (.cancelled, s) :=
  ⟨rfl, rfl, rfl, rfl⟩

/-- Claim C10 (confirmed): `record_donation_logic` never touches the donor
store: whatever the inputs and whatever the outcome (success, not-found,
invalid amount, or an escaped parse error), the donors file after the call
is the donors file before it. -/
theorem c10_frame (s : TrackerState) (name amt dt st : PyStr) :
    ((record_donation_logic s name amt dt st).2).donorsFile = s.donorsFile := by
  unfold record_donation_logic
  repeat' split
  all_goals rfl
